import Mathlib

/-!
# Formal model of the apnea-training table generators and session engines

Shallow embedding of the breath-hold training application:

* `generateCo2Table` / `generateO2Table` — the pure table generators of
  `src/lib/tables.ts`.
* `TwoPhase` — the two-phase session controller (phases `ready`, `prep`,
  `hold`, `finished`) of the `TrainingController` component that validates
  personal bests at 30 s / 60 s and drives a `prep`/`hold` countdown.
* `ThreePhase` — the three-phase session controller (phases `prep`, `hold`,
  `recovery`, `finished`) of the other `TrainingController` component, whose
  `advancePhase` walks `prep → hold → recovery → prep` and reads the round's
  `recovery` field.

React state is modelled as explicit records; the `setTimeout` countdown tick
and the `useEffect` reactions that fire on state changes are modelled as
functions on those records.  Sound-cue requests (`playStartSound`,
`playTickSound`, `playEndSound`) are recorded in a ghost `trace` field, in
emission order.  JavaScript numbers that can hold `undefined` or `NaN` are
modelled by `JsNum`.
-/

set_option maxRecDepth 100000

/-- The two table variants selectable in the UI (`tableType` state). -/
inductive TableType where
  | co2
  | o2
deriving DecidableEq, Repr

/-- A training round, from `src/lib/types.ts`.  The `recovery` field is
declared as a number in the three-phase variant of the type, but the
generators in `src/lib/tables.ts` push object literals without it, so at
run time reading it yields `undefined`; we model the field as `Option Nat`
with `none` standing for an absent (`undefined`) value. -/
structure TrainingRound where
  round : Nat
  prep : Nat
  hold : Nat
  recovery : Option Nat
deriving DecidableEq, Repr, Inhabited

/-- Audible cue requests sent to the audio collaborator. -/
inductive Cue where
  | phaseStart
  | tick
  | phaseEnd
deriving DecidableEq, Repr

/-- `Math.round (pb * 0.60)` for a natural-number personal best, in exact
arithmetic.  `3 * pb / 5` has fractional part in `{0, .2, .4, .6, .8}`, and
for personal bests in the form's range the floating-point product stays well
inside the same rounding bucket, so JavaScript's round-half-up agrees with
`⌊(6 * pb + 5) / 10⌋`. -/
def roundPb60 (pb : Nat) : Nat := (6 * pb + 5) / 10

/-- `Math.round (pb * 0.5)` for a natural-number personal best: halves round
up, so this is `⌊(pb + 1) / 2⌋` (exact, `pb * 0.5` is an exact double). -/
def roundPbHalf (pb : Nat) : Nat := (pb + 1) / 2

/-- `NUM_ROUNDS` in `src/lib/tables.ts`. -/
def NUM_ROUNDS : Nat := 8

/-- `generateCo2Table` from `src/lib/tables.ts`: constant hold time,
decreasing prep (recovery) time.  The loop `for i = 1..NUM_ROUNDS` is
rendered as a map over `List.range`, with `i = k + 1`.  The subtraction
`startPrepTime - (i-1)*decreaseStep` never goes below zero in the source
(`startPrepTime ≥ 105 ≥ (i-1)*15`), so truncated `Nat` subtraction agrees
with JavaScript arithmetic. -/
def generateCo2Table (personalBestInSeconds : Nat) : List TrainingRound :=
  let holdTime := max 30 (roundPb60 personalBestInSeconds)
  let startPrepTime := holdTime + 75
  let decreaseStep := 15
  (List.range NUM_ROUNDS).map fun k =>
    let i := k + 1
    { round := i
      prep := max 30 (startPrepTime - (i - 1) * decreaseStep)
      hold := holdTime
      recovery := none }

/-- `generateO2Table` from `src/lib/tables.ts`: increasing hold time,
constant prep (recovery) time. -/
def generateO2Table (personalBestInSeconds : Nat) : List TrainingRound :=
  let startHoldTime := max 45 (roundPbHalf personalBestInSeconds)
  let recoveryTime := 120
  let holdIncrement := 10
  (List.range NUM_ROUNDS).map fun k =>
    let i := k + 1
    { round := i
      prep := recoveryTime
      hold := startHoldTime + (i - 1) * holdIncrement
      recovery := none }

/-- Dispatch on the selected variant, as in both controllers' `onSubmit`. -/
def generateTable (tableType : TableType) (pb : Nat) : List TrainingRound :=
  match tableType with
  | .co2 => generateCo2Table pb
  | .o2 => generateO2Table pb

-- scratch checks (spec §8 examples)
example : (generateCo2Table 90).length = 8 := by decide
example : (generateCo2Table 90).headI.prep = 129 := by decide
example : (generateCo2Table 90).headI.hold = 54 := by decide
example : (generateCo2Table 90).getLast?.map (·.prep) = some 30 := by decide
example : (generateO2Table 90).headI.hold = 45 := by decide
example : (generateO2Table 90).getLast?.map (·.hold) = some 115 := by decide

/-! ## The two-phase controller

The `TrainingController` whose phases are `ready`, `prep`, `hold` and
`finished`.  Its countdown is driven by two `useEffect` reactions:

* the *load* effect (deps `[isSessionActive, currentPhase,
  currentRoundIndex, tableData]`): while a session is active and in `prep`
  or `hold`, it loads the current phase's duration into `timeRemaining` and
  plays the phase-start sound, finishing defensively if the round index is
  out of range;
* the *countdown* effect (deps `[isSessionActive, timeRemaining,
  advancePhase]`): when `timeRemaining` hits `0` while active it plays the
  end sound and calls `advancePhase`; otherwise, while positive, it arms a
  one-second `setTimeout` that decrements `timeRemaining` (plus a tick sound
  in the closing window).

`tick` below models one firing of that timeout followed by the reactions it
triggers; `cascade` iterates the countdown-effect reaction (each firing of
which re-runs the load effect, since `advancePhase` changes the phase or
round) until the state no longer triggers it.  `cascade` is fuelled; the
fuel `fuelOf` is large enough for every state whose advance makes progress,
and in degenerate states where `advancePhase` changes nothing (never reached
with a bound table) the source emits a single end cue while this model may
repeat it — no claim exercises such states. -/

namespace TwoPhase

/-- Phases of the two-phase controller: the `TrainingPhase` union
`'prep' | 'hold'` together with the component-level `'ready'` and
`'finished'` values of its `useState`. -/
inductive Phase where
  | ready
  | prep
  | hold
  | finished
deriving DecidableEq, Repr

/-- The component's React state (audio/dialog state aside), plus the ghost
cue `trace`.  `timeRemaining` is an `Int`, as the source decrements a
JavaScript number. -/
structure State where
  tableType : TableType
  tableData : Option (List TrainingRound)
  isSessionActive : Bool
  currentRoundIndex : Nat
  currentPhase : Phase
  timeRemaining : Int
  showAlert : Bool
  alertMessage : String
  trace : List Cue
deriving DecidableEq, Repr

/-- Initial `useState` values: `'co2'`, no table, inactive, round 0,
phase `'ready'`, `timeRemaining = 0`, no alert. -/
def initialState : State :=
  { tableType := .co2
    tableData := none
    isSessionActive := false
    currentRoundIndex := 0
    currentPhase := .ready
    timeRemaining := 0
    showAlert := false
    alertMessage := ""
    trace := [] }

/-- `advancePhase` (the `useCallback`): no-op without a table; from `hold`
on the last index (`currentRoundIndex === tableData.length - 1`, compared
over `Int` as JavaScript would) finish and deactivate, otherwise step to the
next round's `prep`; from `prep` move to `hold`.  Other phases fall
through unchanged. -/
def advancePhase (s : State) : State :=
  match s.tableData with
  | none => s
  | some tableData =>
    if s.currentPhase = Phase.hold then
      if (s.currentRoundIndex : Int) = (tableData.length : Int) - 1 then
        { s with currentPhase := Phase.finished, isSessionActive := false }
      else
        { s with currentPhase := Phase.prep
                 currentRoundIndex := s.currentRoundIndex + 1 }
    else if s.currentPhase = Phase.prep then
      { s with currentPhase := Phase.hold }
    else s

/-- The load effect: with an active session in `prep` or `hold`, read the
current round (finishing defensively when the index is out of range, the
`if (!round)` branch) and load that phase's duration, playing the
phase-start sound. -/
def load (s : State) : State :=
  match s.tableData with
  | none => s
  | some tableData =>
    if s.isSessionActive = true ∧
        (s.currentPhase = Phase.prep ∨ s.currentPhase = Phase.hold) then
      match tableData[s.currentRoundIndex]? with
      | none => { s with isSessionActive := false, currentPhase := Phase.finished }
      | some round =>
        let duration : Nat :=
          if s.currentPhase = Phase.prep then round.prep else round.hold
        { s with timeRemaining := (duration : Int)
                 trace := s.trace ++ [Cue.phaseStart] }
    else s

/-- The countdown effect fires its advance branch exactly when the session
is active and `timeRemaining === 0`. -/
def cascadeTrigger (s : State) : Prop :=
  s.isSessionActive = true ∧ s.timeRemaining = 0

instance (s : State) : Decidable (cascadeTrigger s) := by
  unfold cascadeTrigger; infer_instance

/-- Iterate the countdown-effect advance (end cue, `advancePhase`, then the
load effect re-running on the changed phase/round) until the state no longer
triggers it. -/
def cascade : Nat → State → State
  | 0, s => s
  | fuel + 1, s =>
    if cascadeTrigger s then
      cascade fuel (load (advancePhase { s with trace := s.trace ++ [Cue.phaseEnd] }))
    else s

/-- Enough fuel for any cascade from a state whose advances make progress:
each firing either moves `prep → hold` or advances the round, so at most
`2 · length` firings occur before the session finishes. -/
def fuelOf (s : State) : Nat := 2 * (s.tableData.getD []).length + 2

/-- One firing of the armed `setTimeout` (only armed while active with
positive `timeRemaining`): decrement by one, play the tick sound when the
closed-over value lies in `1 < t ≤ 4`, then run the effect reactions. -/
def tick (s : State) : State :=
  if s.isSessionActive = true ∧ 0 < s.timeRemaining then
    let cues := if 1 < s.timeRemaining ∧ s.timeRemaining ≤ 4 then [Cue.tick] else []
    let s1 := { s with timeRemaining := s.timeRemaining - 1, trace := s.trace ++ cues }
    cascade (fuelOf s1) s1
  else s

/-- `resetSessionState`: deactivate, round 0, phase `'ready'`,
`timeRemaining = 0` (and cancel the pending timeout). -/
def resetSessionState (s : State) : State :=
  { s with isSessionActive := false
           currentRoundIndex := 0
           currentPhase := Phase.ready
           timeRemaining := 0 }

/-- `startSession`: silently no-op without a table; otherwise activate at
round 0 in `prep`.  The state change re-runs the load effect (loading
`tableData[0].prep` with a start cue) and then the countdown effect. -/
def startSession (s : State) : State :=
  match s.tableData with
  | none => s
  | some _ =>
    let s1 := { s with isSessionActive := true
                       currentRoundIndex := 0
                       currentPhase := Phase.prep }
    let s2 := load s1
    cascade (fuelOf s2) s2

/-- `stopSession`: deactivate, reset the session state, and clear the bound
table (the stop-confirmation dialog flag and form reset are presentation
state, not modelled). -/
def stopSession (s : State) : State :=
  { resetSessionState { s with isSessionActive := false } with tableData := none }

/-- Alert text for a CO₂ personal best under 30 s. -/
def co2AlertMessage : String :=
  "Please enter a comfortable Personal Best time of at least 30 seconds for CO₂ tables."

/-- Alert text for an O₂ personal best under 60 s. -/
def o2AlertMessage : String :=
  "O₂ tables are dangerous. Please enter a Personal Best time of at least 60 seconds to ensure you are experienced enough."

/-- `onSubmit`: reject a CO₂ personal best under 30 s or an O₂ one under
60 s with an alert, touching nothing else; otherwise bind the freshly
generated table and reset the session state. -/
def onSubmit (pb : Nat) (s : State) : State :=
  if s.tableType = TableType.co2 ∧ pb < 30 then
    { s with alertMessage := co2AlertMessage, showAlert := true }
  else if s.tableType = TableType.o2 ∧ pb < 60 then
    { s with alertMessage := o2AlertMessage, showAlert := true }
  else
    resetSessionState { s with tableData := some (generateTable s.tableType pb) }

end TwoPhase

-- scratch: a started CO₂-90 session loads 129 s of prep
example :
    (TwoPhase.startSession
      { TwoPhase.initialState with tableData := some (generateCo2Table 90) }).timeRemaining
      = 129 := by decide
example :
    ((TwoPhase.tick)^[129]
      (TwoPhase.startSession
        { TwoPhase.initialState with tableData := some (generateCo2Table 90) })).currentPhase
      = TwoPhase.Phase.hold := by decide

/-! ## The three-phase controller

The `TrainingController` whose `TrainingPhase` is
`'prep' | 'hold' | 'recovery' | 'finished'`.  Its `advancePhase` advances
the phase and (after `recovery`) the round index, finishes when the advanced
index runs off the table or when the round indexed by it has `recovery === 0`
while the ending phase is `hold`, and otherwise loads
`nextRound[nextPhase]` — which is `undefined` when the field is absent.
`timeRemaining` is therefore modelled as a `JsNum` that can hold
`undefined` or `NaN`. -/

/-- A JavaScript number slot: a genuine number, `undefined` (an absent
object field), or `NaN` (arithmetic on `undefined`). -/
inductive JsNum where
  | num : Int → JsNum
  | undefined
  | nan
deriving DecidableEq, Repr

/-- `x - 1` on a JavaScript number slot: `undefined - 1` and `NaN - 1` are
`NaN`. -/
def jsSub1 : JsNum → JsNum
  | .num n => .num (n - 1)
  | _ => .nan

/-- `x <= 0` on a JavaScript number slot: comparisons against `undefined`
or `NaN` are false. -/
def jsLeZero : JsNum → Bool
  | .num n => decide (n ≤ 0)
  | _ => false

/-- `x > 1 && x <= 4` (the tick-sound window); false on `undefined`/`NaN`. -/
def jsTickWindow : JsNum → Bool
  | .num n => decide (1 < n ∧ n ≤ 4)
  | _ => false

namespace ThreePhase

/-- `TrainingPhase` of the three-phase variant of `src/lib/types.ts`. -/
inductive Phase where
  | prep
  | hold
  | recovery
  | finished
deriving DecidableEq, Repr

/-- `nextRound[nextPhase]`: the duration a round stores for a phase.
Reading `recovery` when the field was never assigned yields `undefined`,
as does the (unreachable) read `nextRound['finished']`. -/
def roundDuration (r : TrainingRound) : Phase → JsNum
  | .prep => .num r.prep
  | .hold => .num r.hold
  | .recovery =>
    match r.recovery with
    | some v => .num v
    | none => .undefined
  | .finished => .undefined

/-- The component's React state (audio/dialog state aside), plus the ghost
cue `trace`. -/
structure State where
  tableType : TableType
  tableData : Option (List TrainingRound)
  isSessionActive : Bool
  currentRoundIndex : Nat
  currentPhase : Phase
  timeRemaining : JsNum
  trace : List Cue
deriving DecidableEq, Repr

/-- Initial `useState` values: `'co2'`, no table, inactive, round 0,
phase `'prep'`, `timeRemaining = 0`. -/
def initialState : State :=
  { tableType := .co2
    tableData := none
    isSessionActive := false
    currentRoundIndex := 0
    currentPhase := .prep
    timeRemaining := .num 0
    trace := [] }

/-- `advancePhase` (the `useCallback`): compute `nextPhase` and
`nextRoundIndex` (incremented only after `recovery`); finish and deactivate
when `nextRoundIndex >= tableData.length` (the `none` arm of the lookup) or
when `tableData[nextRoundIndex].recovery === 0` with the ending phase
`hold`; otherwise install the next phase, round and duration with a
phase-start sound. -/
def advancePhase (s : State) : State :=
  match s.tableData with
  | none => s
  | some tableData =>
    let nextPhase : Phase :=
      match s.currentPhase with
      | .prep => .hold
      | .hold => .recovery
      | .recovery => .prep
      | p => p
    let nextRoundIndex : Nat :=
      if s.currentPhase = Phase.recovery then s.currentRoundIndex + 1
      else s.currentRoundIndex
    match tableData[nextRoundIndex]? with
    | none => { s with isSessionActive := false, currentPhase := Phase.finished }
    | some nextRound =>
      if nextRound.recovery = some 0 ∧ s.currentPhase = Phase.hold then
        { s with isSessionActive := false, currentPhase := Phase.finished }
      else
        { s with currentPhase := nextPhase
                 currentRoundIndex := nextRoundIndex
                 timeRemaining := roundDuration nextRound nextPhase
                 trace := s.trace ++ [Cue.phaseStart] }

/-- The phase-end effect fires exactly when the session is active and
`timeRemaining === 0` (strict equality: `undefined` and `NaN` do not
trigger it). -/
def cascadeTrigger (s : State) : Prop :=
  s.isSessionActive = true ∧ s.timeRemaining = JsNum.num 0

instance (s : State) : Decidable (cascadeTrigger s) := by
  unfold cascadeTrigger; infer_instance

/-- Iterate the phase-end reaction (end cue then `advancePhase`, which
itself loads the next duration) until the state no longer triggers it. -/
def cascade : Nat → State → State
  | 0, s => s
  | fuel + 1, s =>
    if cascadeTrigger s then
      cascade fuel (advancePhase { s with trace := s.trace ++ [Cue.phaseEnd] })
    else s

/-- Enough fuel for any cascade whose advances make progress: at most
`3 · length` phase steps exist, plus one degenerate step. -/
def fuelOf (s : State) : Nat := 3 * (s.tableData.getD []).length + 3

/-- One firing of the armed `setTimeout` (armed while active unless
`timeRemaining <= 0` — so it stays armed on `undefined`/`NaN`): decrement,
tick sound in the `1 < t ≤ 4` window, then the phase-end reaction. -/
def tick (s : State) : State :=
  if s.isSessionActive = true ∧ ¬ jsLeZero s.timeRemaining = true then
    let cues := if jsTickWindow s.timeRemaining = true then [Cue.tick] else []
    let s1 := { s with timeRemaining := jsSub1 s.timeRemaining, trace := s.trace ++ cues }
    cascade (fuelOf s1) s1
  else s

/-- `startSession`: silently no-op without a table; otherwise activate at
round 0 in `prep` with `timeRemaining = tableData[0].prep` (reading `[0]`
of an empty table would yield `undefined`) and a start sound; the state
change re-runs the phase-end effect. -/
def startSession (s : State) : State :=
  match s.tableData with
  | none => s
  | some tableData =>
    let firstPrep : JsNum :=
      match tableData.head? with
      | some r => .num r.prep
      | none => .undefined
    let s1 := { s with isSessionActive := true
                       currentRoundIndex := 0
                       currentPhase := Phase.prep
                       timeRemaining := firstPrep
                       trace := s.trace ++ [Cue.phaseStart] }
    cascade (fuelOf s1) s1

/-- `stopSession`: deactivate, cancel the pending timeout, keep the table,
reset round 0 / phase `'prep'` / `timeRemaining = 0`. -/
def stopSession (s : State) : State :=
  { s with isSessionActive := false
           currentRoundIndex := 0
           currentPhase := Phase.prep
           timeRemaining := JsNum.num 0 }

/-- `onSubmit`: compute `totalSeconds` from the minutes/seconds fields,
generate the variant's table unconditionally (the only validation is the
form schema's `0 < total < 600`), bind it and reset the session flags —
`timeRemaining` is left untouched. -/
def onSubmit (minutes seconds : Nat) (s : State) : State :=
  let totalSeconds := minutes * 60 + seconds
  { s with tableData := some (generateTable s.tableType totalSeconds)
           isSessionActive := false
           currentRoundIndex := 0
           currentPhase := Phase.prep }

end ThreePhase

-- scratch: three-phase run on a generated CO₂-30 table (prep 105, hold 30):
-- after 135 ticks the session sits in recovery with an undefined countdown,
-- and further ticks leave it NaN.
example :
    ((ThreePhase.tick)^[135]
      (ThreePhase.startSession (ThreePhase.onSubmit 0 30 ThreePhase.initialState))).timeRemaining
      = JsNum.undefined := by decide
example :
    ((ThreePhase.tick)^[137]
      (ThreePhase.startSession (ThreePhase.onSubmit 0 30 ThreePhase.initialState))).timeRemaining
      = JsNum.nan := by decide

/-- Total seconds a two-phase session spends on a table: every round's
`prep` plus `hold`. -/
def tableTicks (t : List TrainingRound) : Nat :=
  (t.map fun r => r.prep + r.hold).sum

/-- Seconds remaining in a two-phase session from the start of round `i`'s
`prep`. -/
def remTicks (t : List TrainingRound) (i : Nat) : Nat :=
  ((t.drop i).map fun r => r.prep + r.hold).sum

/-- A small concrete 8-round table (one-second phases) used to instantiate
universally quantified statements. -/
def shortTable : List TrainingRound :=
  [⟨1, 1, 1, none⟩, ⟨2, 1, 1, none⟩, ⟨3, 1, 1, none⟩, ⟨4, 1, 1, none⟩,
   ⟨5, 1, 1, none⟩, ⟨6, 1, 1, none⟩, ⟨7, 1, 1, none⟩, ⟨8, 1, 1, none⟩]

/-!
## Theorems

First the table-generator claims, then helper lemmas about the two session
engines, then the session-engine claims.
-/

/-- **C4.** For every positive personal best, `generateCo2Table` returns
exactly 8 rounds numbered 1–8; every round's hold equals
`max 30 (round (pb · 0.60))`, round `i` (0-based here) has
`prep = max 30 ((hold + 75) - i·15)`, prep is non-increasing across rounds,
and prep never drops below 30 s. -/
theorem generateCo2Table_spec (pb : Nat) (hpb : 0 < pb) :
    (generateCo2Table pb).length = 8 ∧
    (∀ i (h : i < (generateCo2Table pb).length),
      ((generateCo2Table pb).get ⟨i, h⟩).round = i + 1 ∧
      ((generateCo2Table pb).get ⟨i, h⟩).hold = max 30 (roundPb60 pb) ∧
      ((generateCo2Table pb).get ⟨i, h⟩).prep
        = max 30 ((max 30 (roundPb60 pb) + 75) - i * 15)) ∧
    (∀ i j (hi : i < (generateCo2Table pb).length)
        (hj : j < (generateCo2Table pb).length), i ≤ j →
      ((generateCo2Table pb).get ⟨j, hj⟩).prep
        ≤ ((generateCo2Table pb).get ⟨i, hi⟩).prep) ∧
    (∀ i (h : i < (generateCo2Table pb).length),
      30 ≤ ((generateCo2Table pb).get ⟨i, h⟩).prep) := by
  refine ⟨by simp [generateCo2Table, NUM_ROUNDS], ?_, ?_, ?_⟩
  · intro i h
    simp [generateCo2Table, List.get_eq_getElem, List.getElem_map, List.getElem_range]
  · intro i j hi hj hij
    simp only [generateCo2Table, List.get_eq_getElem, List.getElem_map, List.getElem_range,
      Nat.add_sub_cancel]
    exact max_le_max le_rfl (Nat.sub_le_sub_left (Nat.mul_le_mul_right 15 hij) _)
  · intro i h
    simp only [generateCo2Table, List.get_eq_getElem, List.getElem_map, List.getElem_range,
      Nat.add_sub_cancel]
    exact le_max_left _ _

/-- Witness for C4 at `pb = 90`: the table has 8 rounds and (applying the
round-8 facts) prep has fallen to its 30 s floor while hold stays 54 s. -/
theorem generateCo2Table_spec_witness :
    ((generateCo2Table 90).get ⟨7, by decide⟩).hold = max 30 (roundPb60 90) ∧
    30 ≤ ((generateCo2Table 90).get ⟨7, by decide⟩).prep := by
  have h := generateCo2Table_spec 90 (by decide)
  exact ⟨(h.2.1 7 (by decide)).2.1, h.2.2.2 7 (by decide)⟩

/-- **C5.** For every positive personal best, `generateO2Table` returns
exactly 8 rounds numbered 1–8; every round's prep equals 120 s, round `i`
(0-based here) holds `max 45 (round (pb · 0.5)) + i·10`, and hold strictly
increases by exactly 10 s from each round to the next. -/
theorem generateO2Table_spec (pb : Nat) (hpb : 0 < pb) :
    (generateO2Table pb).length = 8 ∧
    (∀ i (h : i < (generateO2Table pb).length),
      ((generateO2Table pb).get ⟨i, h⟩).round = i + 1 ∧
      ((generateO2Table pb).get ⟨i, h⟩).prep = 120 ∧
      ((generateO2Table pb).get ⟨i, h⟩).hold
        = max 45 (roundPbHalf pb) + i * 10) ∧
    (∀ i (h : i + 1 < (generateO2Table pb).length),
      ((generateO2Table pb).get ⟨i + 1, h⟩).hold
        = ((generateO2Table pb).get ⟨i, Nat.lt_of_succ_lt h⟩).hold + 10) := by
  refine ⟨by simp [generateO2Table, NUM_ROUNDS], ?_, ?_⟩
  · intro i h
    simp [generateO2Table, List.get_eq_getElem, List.getElem_map, List.getElem_range]
  · intro i h
    simp only [generateO2Table, List.get_eq_getElem, List.getElem_map, List.getElem_range,
      Nat.add_sub_cancel]
    ring

/-- Witness for C5 at `pb = 90`: round 1 holds 45 s with 120 s prep, and
round 2 holds exactly 10 s more. -/
theorem generateO2Table_spec_witness :
    ((generateO2Table 90).get ⟨0, by decide⟩).prep = 120 ∧
    ((generateO2Table 90).get ⟨1, by decide⟩).hold
      = ((generateO2Table 90).get ⟨0, by decide⟩).hold + 10 := by
  have h := generateO2Table_spec 90 (by decide)
  exact ⟨(h.2.1 0 (by decide)).2.1, h.2.2 0 (by decide)⟩

/-! ### Helper lemmas about the two-phase engine's effect cascade -/

/-- A state that does not trigger the countdown-effect advance is left
unchanged by `cascade`. -/
theorem TwoPhase.cascade_of_not_trigger {s : TwoPhase.State}
    (h : ¬ TwoPhase.cascadeTrigger s) (fuel : Nat) :
    TwoPhase.cascade fuel s = s := by
  cases fuel <;> simp [TwoPhase.cascade, h]

/-- Unfold one firing of the two-phase countdown-effect advance. -/
theorem TwoPhase.cascade_of_trigger {s : TwoPhase.State}
    (h : TwoPhase.cascadeTrigger s) {fuel : Nat} (hf : 0 < fuel) :
    TwoPhase.cascade fuel s
      = TwoPhase.cascade (fuel - 1)
          (TwoPhase.load (TwoPhase.advancePhase { s with trace := s.trace ++ [Cue.phaseEnd] })) := by
  cases fuel with
  | zero => exact absurd hf (by omega)
  | succ n => simp [TwoPhase.cascade, h]

/-- A mid-phase tick (more than one second left) only decrements the
countdown, emitting the tick cue inside the closing window. -/
theorem TwoPhase.tick_decrement {s : TwoPhase.State}
    (ha : s.isSessionActive = true) (hgt : 1 < s.timeRemaining) :
    TwoPhase.tick s
      = { s with timeRemaining := s.timeRemaining - 1
                 trace := s.trace ++
                   if 1 < s.timeRemaining ∧ s.timeRemaining ≤ 4 then [Cue.tick] else [] } := by
  unfold TwoPhase.tick
  rw [if_pos ⟨ha, by omega⟩]
  exact TwoPhase.cascade_of_not_trigger (by simp [TwoPhase.cascadeTrigger]; omega) _

/-- Running `i` mid-phase ticks (with more than `i` seconds left) leaves
everything but the countdown and the cue trace unchanged, decrementing the
countdown by `i`; the appended cues are all tick cues. -/
theorem TwoPhase.tick_countdown :
    ∀ (i : Nat) (s : TwoPhase.State), s.isSessionActive = true →
      (i : Int) < s.timeRemaining →
      ∃ tr : List Cue,
        (TwoPhase.tick)^[i] s
          = { s with timeRemaining := s.timeRemaining - i, trace := s.trace ++ tr } ∧
        ∀ c ∈ tr, c = Cue.tick := by
  intro i
  induction i with
  | zero =>
    intro s ha _
    refine ⟨[], ?_, by simp⟩
    cases s
    simp
  | succ i ih =>
    intro s ha hlt
    have hgt : 1 < s.timeRemaining := by
      have : ((i : Int) + 1) < s.timeRemaining := by push_cast at hlt ⊢; omega
      omega
    have hstep := TwoPhase.tick_decrement ha hgt
    set cues := if 1 < s.timeRemaining ∧ s.timeRemaining ≤ 4 then [Cue.tick] else [] with hcues
    have hcuetick : ∀ c ∈ cues, c = Cue.tick := by
      rw [hcues]
      split <;> simp
    obtain ⟨tr, htr, htick⟩ :=
      ih { s with timeRemaining := s.timeRemaining - 1, trace := s.trace ++ cues }
        (by simpa using ha) (by simp; push_cast at hlt ⊢; omega)
    refine ⟨cues ++ tr, ?_, ?_⟩
    · rw [Function.iterate_succ_apply, hstep, htr]
      cases s
      simp only [List.append_assoc]
      congr 1
      push_cast
      ring
    · intro c hc
      rcases List.mem_append.1 hc with h | h
      · exact hcuetick c h
      · exact htick c h

/-- The tick that ends a `prep` phase: the countdown hits 0, the end cue
fires, the phase becomes `hold` in the same round, and the round's hold
duration is loaded with a start cue. -/
theorem TwoPhase.tick_prep_boundary (s : TwoPhase.State) (t : List TrainingRound)
    (r : TrainingRound)
    (hb : s.tableData = some t) (ha : s.isSessionActive = true)
    (hph : s.currentPhase = TwoPhase.Phase.prep)
    (hr : t[s.currentRoundIndex]? = some r) (hh : 0 < r.hold)
    (htr : s.timeRemaining = 1) :
    TwoPhase.tick s
      = { s with currentPhase := TwoPhase.Phase.hold
                 timeRemaining := (r.hold : Int)
                 trace := s.trace ++ [Cue.phaseEnd, Cue.phaseStart] } := by
  obtain ⟨tt, td, act, idx, ph, trem, sa, am, trc⟩ := s
  simp only at hb ha hph hr htr
  subst hb ha hph htr
  unfold TwoPhase.tick
  norm_num
  rw [TwoPhase.cascade_of_trigger ⟨rfl, rfl⟩ (by simp [TwoPhase.fuelOf])]
  have hadv : TwoPhase.advancePhase
      ⟨tt, some t, true, idx, TwoPhase.Phase.prep, 0, sa, am, trc ++ [Cue.phaseEnd]⟩
      = ⟨tt, some t, true, idx, TwoPhase.Phase.hold, 0, sa, am, trc ++ [Cue.phaseEnd]⟩ := rfl
  rw [hadv]
  have hload : TwoPhase.load
      ⟨tt, some t, true, idx, TwoPhase.Phase.hold, 0, sa, am, trc ++ [Cue.phaseEnd]⟩
      = ⟨tt, some t, true, idx, TwoPhase.Phase.hold, (r.hold : Int), sa, am,
          trc ++ [Cue.phaseEnd] ++ [Cue.phaseStart]⟩ := by
    unfold TwoPhase.load
    simp only []
    rw [hr]
    simp
  rw [hload]
  rw [TwoPhase.cascade_of_not_trigger (by simp [TwoPhase.cascadeTrigger]; omega)]
  simp

/-- The tick that ends the `hold` of the last round: the countdown hits 0,
the end cue fires, and `advancePhase` finishes and deactivates the
session; the load effect does not fire on a finished session, so no start
cue follows. -/
theorem TwoPhase.tick_hold_last_boundary (s : TwoPhase.State) (t : List TrainingRound)
    (hb : s.tableData = some t) (ha : s.isSessionActive = true)
    (hph : s.currentPhase = TwoPhase.Phase.hold)
    (hlast : s.currentRoundIndex + 1 = t.length)
    (htr : s.timeRemaining = 1) :
    TwoPhase.tick s
      = { s with currentPhase := TwoPhase.Phase.finished
                 isSessionActive := false
                 timeRemaining := 0
                 trace := s.trace ++ [Cue.phaseEnd] } := by
  obtain ⟨tt, td, act, idx, ph, trem, sa, am, trc⟩ := s
  simp only at hb ha hph hlast htr
  subst hb ha hph htr
  unfold TwoPhase.tick
  norm_num
  rw [TwoPhase.cascade_of_trigger ⟨rfl, rfl⟩ (by simp [TwoPhase.fuelOf])]
  have hadv : TwoPhase.advancePhase
      ⟨tt, some t, true, idx, TwoPhase.Phase.hold, 0, sa, am, trc ++ [Cue.phaseEnd]⟩
      = ⟨tt, some t, false, idx, TwoPhase.Phase.finished, 0, sa, am, trc ++ [Cue.phaseEnd]⟩ := by
    unfold TwoPhase.advancePhase
    simp only []
    rw [if_pos (show ((idx : Int) = (t.length : Int) - 1) by omega)]
    simp
  rw [hadv]
  have hload : TwoPhase.load
      ⟨tt, some t, false, idx, TwoPhase.Phase.finished, 0, sa, am, trc ++ [Cue.phaseEnd]⟩
      = ⟨tt, some t, false, idx, TwoPhase.Phase.finished, 0, sa, am, trc ++ [Cue.phaseEnd]⟩ := rfl
  rw [hload]
  rw [TwoPhase.cascade_of_not_trigger (by simp [TwoPhase.cascadeTrigger])]

/-- The tick that ends the `hold` of a non-final round: the countdown hits
0, the end cue fires, the session advances to the next round's `prep`, and
that round's prep duration is loaded with a start cue. -/
theorem TwoPhase.tick_hold_mid_boundary (s : TwoPhase.State) (t : List TrainingRound)
    (r : TrainingRound)
    (hb : s.tableData = some t) (ha : s.isSessionActive = true)
    (hph : s.currentPhase = TwoPhase.Phase.hold)
    (hmid : s.currentRoundIndex + 1 < t.length)
    (hr : t[s.currentRoundIndex + 1]? = some r) (hp : 0 < r.prep)
    (htr : s.timeRemaining = 1) :
    TwoPhase.tick s
      = { s with currentPhase := TwoPhase.Phase.prep
                 currentRoundIndex := s.currentRoundIndex + 1
                 timeRemaining := (r.prep : Int)
                 trace := s.trace ++ [Cue.phaseEnd, Cue.phaseStart] } := by
  obtain ⟨tt, td, act, idx, ph, trem, sa, am, trc⟩ := s
  simp only at hb ha hph hmid hr htr
  subst hb ha hph htr
  unfold TwoPhase.tick
  norm_num
  rw [TwoPhase.cascade_of_trigger ⟨rfl, rfl⟩ (by simp [TwoPhase.fuelOf])]
  have hadv : TwoPhase.advancePhase
      ⟨tt, some t, true, idx, TwoPhase.Phase.hold, 0, sa, am, trc ++ [Cue.phaseEnd]⟩
      = ⟨tt, some t, true, idx + 1, TwoPhase.Phase.prep, 0, sa, am, trc ++ [Cue.phaseEnd]⟩ := by
    unfold TwoPhase.advancePhase
    simp only []
    rw [if_neg (show ¬((idx : Int) = (t.length : Int) - 1) by omega)]
    simp
  rw [hadv]
  have hload : TwoPhase.load
      ⟨tt, some t, true, idx + 1, TwoPhase.Phase.prep, 0, sa, am, trc ++ [Cue.phaseEnd]⟩
      = ⟨tt, some t, true, idx + 1, TwoPhase.Phase.prep, (r.prep : Int), sa, am,
          trc ++ [Cue.phaseEnd] ++ [Cue.phaseStart]⟩ := by
    unfold TwoPhase.load
    simp only []
    rw [hr]
    simp
  rw [hload]
  rw [TwoPhase.cascade_of_not_trigger (by simp [TwoPhase.cascadeTrigger]; omega)]
  simp

/-- `startSession` on a bound non-empty table whose first prep is positive:
activate at round 0 in `prep`, load `table[0].prep`, and emit one start
cue. -/
theorem TwoPhase.startSession_eq {s : TwoPhase.State} {r : TrainingRound}
    {rest : List TrainingRound}
    (hb : s.tableData = some (r :: rest)) (hp : 0 < r.prep) :
    TwoPhase.startSession s
      = { s with isSessionActive := true
                 currentRoundIndex := 0
                 currentPhase := TwoPhase.Phase.prep
                 timeRemaining := (r.prep : Int)
                 trace := s.trace ++ [Cue.phaseStart] } := by
  obtain ⟨tt, td, act, idx, ph, trem, sa, am, trc⟩ := s
  simp only at hb
  subst hb
  unfold TwoPhase.startSession
  simp only []
  have hload : TwoPhase.load
      ⟨tt, some (r :: rest), true, 0, TwoPhase.Phase.prep, trem, sa, am, trc⟩
      = ⟨tt, some (r :: rest), true, 0, TwoPhase.Phase.prep, (r.prep : Int), sa, am,
          trc ++ [Cue.phaseStart]⟩ := by
    unfold TwoPhase.load
    simp
  rw [hload]
  rw [TwoPhase.cascade_of_not_trigger (by simp [TwoPhase.cascadeTrigger]; omega)]

/-- Starting a session on a bound table and ticking through the whole first
prep phase: the final tick performs the single `prep → hold` transition,
leaving the round's hold duration loaded; the cues are one start cue (from
starting), some tick cues, and exactly the end/start pair of the
transition. -/
theorem TwoPhase.start_then_prep_ticks {s : TwoPhase.State} {r : TrainingRound}
    {rest : List TrainingRound}
    (hb : s.tableData = some (r :: rest)) (hp : 0 < r.prep) (hh : 0 < r.hold) :
    ∃ tr : List Cue, (∀ c ∈ tr, c = Cue.tick) ∧
      (TwoPhase.tick)^[r.prep] (TwoPhase.startSession s)
        = { s with isSessionActive := true
                   currentRoundIndex := 0
                   currentPhase := TwoPhase.Phase.hold
                   timeRemaining := (r.hold : Int)
                   trace := s.trace ++ [Cue.phaseStart] ++ tr ++ [Cue.phaseEnd, Cue.phaseStart] } := by
  rw [TwoPhase.startSession_eq hb hp]
  obtain ⟨tr, htr, htick⟩ :=
    TwoPhase.tick_countdown (r.prep - 1)
      { s with isSessionActive := true
               currentRoundIndex := 0
               currentPhase := TwoPhase.Phase.prep
               timeRemaining := (r.prep : Int)
               trace := s.trace ++ [Cue.phaseStart] }
      (by simp) (by simp; omega)
  have hiter : (TwoPhase.tick)^[r.prep]
      { s with isSessionActive := true
               currentRoundIndex := 0
               currentPhase := TwoPhase.Phase.prep
               timeRemaining := (r.prep : Int)
               trace := s.trace ++ [Cue.phaseStart] }
      = (TwoPhase.tick)^[1] ((TwoPhase.tick)^[r.prep - 1]
          { s with isSessionActive := true
                   currentRoundIndex := 0
                   currentPhase := TwoPhase.Phase.prep
                   timeRemaining := (r.prep : Int)
                   trace := s.trace ++ [Cue.phaseStart] }) := by
    rw [← Function.iterate_add_apply]
    congr 1
    omega
  refine ⟨tr, htick, ?_⟩
  rw [hiter, htr]
  simp only [Function.iterate_one]
  rw [TwoPhase.tick_prep_boundary _ (r :: rest) r (by simp [hb]) (by simp)
    (by simp) (by simp) hh (by simp; omega)]

/-- Running a whole `prep` phase (duration `r.prep`): countdown plus the
boundary tick into `hold`. -/
theorem TwoPhase.run_prep_phase {s : TwoPhase.State} {t : List TrainingRound}
    {r : TrainingRound}
    (hb : s.tableData = some t) (ha : s.isSessionActive = true)
    (hph : s.currentPhase = TwoPhase.Phase.prep)
    (hr : t[s.currentRoundIndex]? = some r)
    (htr : s.timeRemaining = (r.prep : Int))
    (hp : 0 < r.prep) (hh : 0 < r.hold) :
    ∃ tr : List Cue, (∀ c ∈ tr, c = Cue.tick) ∧
      (TwoPhase.tick)^[r.prep] s
        = { s with currentPhase := TwoPhase.Phase.hold
                   timeRemaining := (r.hold : Int)
                   trace := s.trace ++ tr ++ [Cue.phaseEnd, Cue.phaseStart] } := by
  obtain ⟨tr, htr_eq, htick⟩ :=
    TwoPhase.tick_countdown (r.prep - 1) s ha (by rw [htr]; push_cast; omega)
  have hiter : (TwoPhase.tick)^[r.prep] s
      = (TwoPhase.tick)^[1] ((TwoPhase.tick)^[r.prep - 1] s) := by
    rw [← Function.iterate_add_apply]
    congr 1
    omega
  refine ⟨tr, htick, ?_⟩
  rw [hiter, htr_eq, Function.iterate_one]
  rw [TwoPhase.tick_prep_boundary _ t r (by simp [hb]) (by simp [ha])
    (by simp [hph]) (by simp [hr]) hh (by simp [htr]; push_cast; omega)]

/-- Running the `hold` phase of the final round: countdown plus the boundary
tick into `finished`. -/
theorem TwoPhase.run_hold_last (s : TwoPhase.State) (t : List TrainingRound)
    (r : TrainingRound)
    (hb : s.tableData = some t) (ha : s.isSessionActive = true)
    (hph : s.currentPhase = TwoPhase.Phase.hold)
    (hr : t[s.currentRoundIndex]? = some r)
    (htr : s.timeRemaining = (r.hold : Int))
    (hh : 0 < r.hold)
    (hlast : s.currentRoundIndex + 1 = t.length) :
    ∃ tr : List Cue, (∀ c ∈ tr, c = Cue.tick) ∧
      (TwoPhase.tick)^[r.hold] s
        = { s with currentPhase := TwoPhase.Phase.finished
                   isSessionActive := false
                   timeRemaining := 0
                   trace := s.trace ++ tr ++ [Cue.phaseEnd] } := by
  obtain ⟨tr, htr_eq, htick⟩ :=
    TwoPhase.tick_countdown (r.hold - 1) s ha (by rw [htr]; push_cast; omega)
  have hiter : (TwoPhase.tick)^[r.hold] s
      = (TwoPhase.tick)^[1] ((TwoPhase.tick)^[r.hold - 1] s) := by
    rw [← Function.iterate_add_apply]
    congr 1
    omega
  refine ⟨tr, htick, ?_⟩
  rw [hiter, htr_eq, Function.iterate_one]
  rw [TwoPhase.tick_hold_last_boundary _ t (by simp [hb]) (by simp [ha])
    (by simp [hph]) (by simp [hlast]) (by simp [htr]; push_cast; omega)]

/-- Running the `hold` phase of a non-final round: countdown plus the
boundary tick into the next round's `prep`. -/
theorem TwoPhase.run_hold_mid (s : TwoPhase.State) (t : List TrainingRound)
    (r r' : TrainingRound)
    (hb : s.tableData = some t) (ha : s.isSessionActive = true)
    (hph : s.currentPhase = TwoPhase.Phase.hold)
    (hr : t[s.currentRoundIndex]? = some r)
    (htr : s.timeRemaining = (r.hold : Int))
    (hh : 0 < r.hold)
    (hmid : s.currentRoundIndex + 1 < t.length)
    (hr' : t[s.currentRoundIndex + 1]? = some r')
    (hp' : 0 < r'.prep) :
    ∃ tr : List Cue, (∀ c ∈ tr, c = Cue.tick) ∧
      (TwoPhase.tick)^[r.hold] s
        = { s with currentPhase := TwoPhase.Phase.prep
                   currentRoundIndex := s.currentRoundIndex + 1
                   timeRemaining := (r'.prep : Int)
                   trace := s.trace ++ tr ++ [Cue.phaseEnd, Cue.phaseStart] } := by
  obtain ⟨tr, htr_eq, htick⟩ :=
    TwoPhase.tick_countdown (r.hold - 1) s ha (by rw [htr]; push_cast; omega)
  have hiter : (TwoPhase.tick)^[r.hold] s
      = (TwoPhase.tick)^[1] ((TwoPhase.tick)^[r.hold - 1] s) := by
    rw [← Function.iterate_add_apply]
    congr 1
    omega
  refine ⟨tr, htick, ?_⟩
  rw [hiter, htr_eq, Function.iterate_one]
  rw [TwoPhase.tick_hold_mid_boundary _ t r' (by simp [hb]) (by simp [ha])
    (by simp [hph]) (by simp [hmid]) (by simp [hr']) hp' (by simp [htr]; push_cast; omega)]

/-- Unfold one round of `remTicks`. -/
theorem remTicks_eq (t : List TrainingRound) (i : Nat) (r : TrainingRound)
    (hr : t[i]? = some r) :
    remTicks t i = (r.prep + r.hold) + remTicks t (i + 1) := by
  obtain ⟨hi, hget⟩ := List.getElem?_eq_some.1 hr
  unfold remTicks
  rw [List.drop_eq_getElem_cons hi, List.map_cons, List.sum_cons, hget]

/-- From the start of any round's `prep`, running the remaining
`remTicks` seconds finishes the session and deactivates it (`k` counts the
rounds left, anchoring the induction). -/
theorem TwoPhase.run_rounds :
    ∀ (k : Nat) (t : List TrainingRound) (s : TwoPhase.State) (r : TrainingRound),
      (∀ r' ∈ t, 0 < r'.prep ∧ 0 < r'.hold) →
      s.tableData = some t → s.isSessionActive = true →
      s.currentPhase = TwoPhase.Phase.prep →
      t[s.currentRoundIndex]? = some r →
      s.timeRemaining = (r.prep : Int) →
      s.currentRoundIndex + k = t.length →
      ((TwoPhase.tick)^[remTicks t s.currentRoundIndex] s).currentPhase
          = TwoPhase.Phase.finished ∧
      ((TwoPhase.tick)^[remTicks t s.currentRoundIndex] s).isSessionActive = false := by
  intro k
  induction k with
  | zero =>
    intro t s r hp hb ha hph hr htr hk
    have := (List.getElem?_eq_some.1 hr).1
    omega
  | succ k ih =>
    intro t s r hp hb ha hph hr htr hk
    have hi : s.currentRoundIndex < t.length := (List.getElem?_eq_some.1 hr).1
    obtain ⟨hpp, hph0⟩ := hp r (List.getElem?_mem hr)
    rw [remTicks_eq t s.currentRoundIndex r hr, Nat.add_comm, Function.iterate_add_apply,
      show r.prep + r.hold = r.hold + r.prep from Nat.add_comm _ _,
      Function.iterate_add_apply]
    obtain ⟨tr1, htk1, he1⟩ := TwoPhase.run_prep_phase hb ha hph hr htr hpp hph0
    rw [he1]
    rcases Nat.lt_or_ge (s.currentRoundIndex + 1) t.length with hmid | hge
    · have hr' : t[s.currentRoundIndex + 1]? = some t[s.currentRoundIndex + 1] :=
        List.getElem?_eq_getElem hmid
      obtain ⟨hpp', _⟩ := hp _ (List.getElem?_mem hr')
      obtain ⟨tr2, htk2, he2⟩ :=
        TwoPhase.run_hold_mid
          { s with currentPhase := TwoPhase.Phase.hold
                   timeRemaining := (r.hold : Int)
                   trace := s.trace ++ tr1 ++ [Cue.phaseEnd, Cue.phaseStart] }
          t r (t[s.currentRoundIndex + 1])
          (by simp [hb]) (by simp [ha]) (by simp) (by simp [hr]) (by simp) hph0
          (by simp [hmid]) (by simp [hr']) hpp'
      rw [he2]
      exact ih t
        { s with currentPhase := TwoPhase.Phase.prep
                 currentRoundIndex := s.currentRoundIndex + 1
                 timeRemaining := (t[s.currentRoundIndex + 1].prep : Int)
                 trace := s.trace ++ tr1 ++ [Cue.phaseEnd, Cue.phaseStart]
                   ++ tr2 ++ [Cue.phaseEnd, Cue.phaseStart] }
        (t[s.currentRoundIndex + 1]) hp (by simp [hb]) (by simp [ha]) (by simp)
        (by simp [hr']) (by simp) (by simp; omega)
    · have hlast : s.currentRoundIndex + 1 = t.length := by omega
      obtain ⟨tr2, htk2, he2⟩ :=
        TwoPhase.run_hold_last
          { s with currentPhase := TwoPhase.Phase.hold
                   timeRemaining := (r.hold : Int)
                   trace := s.trace ++ tr1 ++ [Cue.phaseEnd, Cue.phaseStart] }
          t r
          (by simp [hb]) (by simp [ha]) (by simp) (by simp [hr]) (by simp) hph0
          (by simp [hlast])
      rw [he2]
      have hz : remTicks t (s.currentRoundIndex + 1) = 0 := by
        unfold remTicks
        rw [hlast]
        simp
      rw [hz]
      simp

/-- A tick on an inactive session is a no-op: the timeout is not armed. -/
theorem TwoPhase.tick_of_inactive {s : TwoPhase.State}
    (h : s.isSessionActive = false) : TwoPhase.tick s = s := by
  unfold TwoPhase.tick
  rw [if_neg (by simp [h])]

/-- **C1.** Two-phase engine, phase-boundary behaviour.  For a bound table
and an active session whose countdown is about to reach 0 (the tick from
`timeRemaining = 1`): exactly one transition fires, emitting the end cue;
from `prep` the phase becomes `hold` in the same round with the hold
duration loaded and a start cue; from `hold` on the last index the session
finishes and deactivates; from `hold` elsewhere the round index increases
by one, the phase returns to `prep`, and that round's prep duration is
loaded with a start cue.  Moreover, starting a session and ticking
`T[0].prep` times yields exactly one `prep → hold` transition (one end cue)
with `timeRemaining` reset to `T[0].hold`.  The positivity hypotheses hold
for every table the controller can bind (generator output keeps all
durations ≥ 30 s). -/
theorem twoPhase_phase_boundary (t : List TrainingRound) :
    (∀ (s : TwoPhase.State) (r : TrainingRound),
      s.tableData = some t → s.isSessionActive = true → s.timeRemaining = 1 →
      t[s.currentRoundIndex]? = some r →
      (s.currentPhase = TwoPhase.Phase.prep → 0 < r.hold →
        TwoPhase.tick s
          = { s with currentPhase := TwoPhase.Phase.hold
                     timeRemaining := (r.hold : Int)
                     trace := s.trace ++ [Cue.phaseEnd, Cue.phaseStart] }) ∧
      (s.currentPhase = TwoPhase.Phase.hold → s.currentRoundIndex + 1 = t.length →
        TwoPhase.tick s
          = { s with currentPhase := TwoPhase.Phase.finished
                     isSessionActive := false
                     timeRemaining := 0
                     trace := s.trace ++ [Cue.phaseEnd] }) ∧
      (∀ r' : TrainingRound, s.currentPhase = TwoPhase.Phase.hold →
        s.currentRoundIndex + 1 < t.length →
        t[s.currentRoundIndex + 1]? = some r' → 0 < r'.prep →
        TwoPhase.tick s
          = { s with currentPhase := TwoPhase.Phase.prep
                     currentRoundIndex := s.currentRoundIndex + 1
                     timeRemaining := (r'.prep : Int)
                     trace := s.trace ++ [Cue.phaseEnd, Cue.phaseStart] })) ∧
    (∀ (s : TwoPhase.State) (r : TrainingRound) (rest : List TrainingRound),
      t = r :: rest → s.tableData = some t → 0 < r.prep → 0 < r.hold →
      ((TwoPhase.tick)^[r.prep] (TwoPhase.startSession s)).currentPhase
          = TwoPhase.Phase.hold ∧
      ((TwoPhase.tick)^[r.prep] (TwoPhase.startSession s)).currentRoundIndex = 0 ∧
      ((TwoPhase.tick)^[r.prep] (TwoPhase.startSession s)).isSessionActive = true ∧
      ((TwoPhase.tick)^[r.prep] (TwoPhase.startSession s)).timeRemaining = (r.hold : Int) ∧
      ((TwoPhase.tick)^[r.prep] (TwoPhase.startSession s)).trace.count Cue.phaseEnd
        = (TwoPhase.startSession s).trace.count Cue.phaseEnd + 1 ∧
      ((TwoPhase.tick)^[r.prep] (TwoPhase.startSession s)).trace.count Cue.phaseStart
        = (TwoPhase.startSession s).trace.count Cue.phaseStart + 1) := by
  constructor
  · intro s r hb ha htr hr
    refine ⟨fun hph hh => ?_, fun hph hlast => ?_, fun r' hph hmid hr' hp' => ?_⟩
    · exact TwoPhase.tick_prep_boundary _ _ _ hb ha hph hr hh htr
    · exact TwoPhase.tick_hold_last_boundary _ _ hb ha hph hlast htr
    · exact TwoPhase.tick_hold_mid_boundary _ _ _ hb ha hph hmid hr' hp' htr
  · intro s r rest ht hb hp hh
    subst ht
    obtain ⟨tr, htick, he⟩ := TwoPhase.start_then_prep_ticks hb hp hh
    have hz1 : tr.count Cue.phaseEnd = 0 := by
      rw [List.count_eq_zero]
      intro hmem
      exact absurd (htick _ hmem) (by simp)
    have hz2 : tr.count Cue.phaseStart = 0 := by
      rw [List.count_eq_zero]
      intro hmem
      exact absurd (htick _ hmem) (by simp)
    rw [he, TwoPhase.startSession_eq hb hp]
    refine ⟨by simp, by simp, by simp, by simp, ?_, ?_⟩
    · simp [List.count_append, hz1]
    · simp [List.count_append, hz2]

/-- Witness for C1 at the CO₂-90 table: starting and ticking through the
first prep (129 s) lands in `hold` with 54 s loaded. -/
theorem twoPhase_phase_boundary_witness :
    ((TwoPhase.tick)^[129] (TwoPhase.startSession
        { TwoPhase.initialState with tableData := some (generateCo2Table 90) })).currentPhase
      = TwoPhase.Phase.hold ∧
    ((TwoPhase.tick)^[129] (TwoPhase.startSession
        { TwoPhase.initialState with tableData := some (generateCo2Table 90) })).timeRemaining
      = (54 : Int) := by
  have h := (twoPhase_phase_boundary (generateCo2Table 90)).2
    { TwoPhase.initialState with tableData := some (generateCo2Table 90) }
    { round := 1, prep := 129, hold := 54, recovery := none }
    ((generateCo2Table 90).tail)
    (by decide) rfl (by decide) (by decide)
  exact ⟨h.1, h.2.2.2.1⟩

/-- **C6.** Ticking through an entire 8-round two-phase table — every
round's `prep` then `hold`, `tableTicks t` seconds in all — ends in
`finished` with the session deactivated, and a further tick is a no-op.
The positivity hypothesis holds for every table the controller can bind. -/
theorem twoPhase_full_run_finishes (t : List TrainingRound) (s : TwoPhase.State)
    (h8 : t.length = 8)
    (hp : ∀ r ∈ t, 0 < r.prep ∧ 0 < r.hold)
    (hb : s.tableData = some t) :
    ((TwoPhase.tick)^[tableTicks t] (TwoPhase.startSession s)).currentPhase
        = TwoPhase.Phase.finished ∧
    ((TwoPhase.tick)^[tableTicks t] (TwoPhase.startSession s)).isSessionActive = false ∧
    TwoPhase.tick ((TwoPhase.tick)^[tableTicks t] (TwoPhase.startSession s))
      = (TwoPhase.tick)^[tableTicks t] (TwoPhase.startSession s) := by
  obtain ⟨r, rest, ht⟩ : ∃ r rest, t = r :: rest := by
    cases t with
    | nil => simp at h8
    | cons a l => exact ⟨a, l, rfl⟩
  subst ht
  obtain ⟨hpr, hhr⟩ := hp r (by simp)
  rw [TwoPhase.startSession_eq hb hpr]
  have htt : tableTicks (r :: rest) = remTicks (r :: rest) 0 := by
    unfold tableTicks remTicks
    simp
  have hrun := TwoPhase.run_rounds (r :: rest).length (r :: rest)
      { s with isSessionActive := true
               currentRoundIndex := 0
               currentPhase := TwoPhase.Phase.prep
               timeRemaining := (r.prep : Int)
               trace := s.trace ++ [Cue.phaseStart] }
      r hp (by simp [hb]) (by simp) (by simp) (by simp) (by simp) (by simp)
  rw [htt]
  exact ⟨hrun.1, hrun.2, TwoPhase.tick_of_inactive hrun.2⟩

/-! ### Helper lemmas about the three-phase engine's effect cascade -/

/-- A state that does not trigger the phase-end reaction is left unchanged
by the three-phase `cascade`. -/
theorem ThreePhase.cascade_skip {s : ThreePhase.State}
    (h : ¬ ThreePhase.cascadeTrigger s) (fuel : Nat) :
    ThreePhase.cascade fuel s = s := by
  cases fuel <;> simp [ThreePhase.cascade, h]

/-- Unfold one firing of the three-phase phase-end reaction. -/
theorem ThreePhase.cascade_step {s : ThreePhase.State}
    (h : ThreePhase.cascadeTrigger s) {fuel : Nat} (hf : 0 < fuel) :
    ThreePhase.cascade fuel s
      = ThreePhase.cascade (fuel - 1)
          (ThreePhase.advancePhase { s with trace := s.trace ++ [Cue.phaseEnd] }) := by
  cases fuel with
  | zero => exact absurd hf (by omega)
  | succ n => simp [ThreePhase.cascade, h]

/-- **C2 (amended).** Three-phase engine: when the countdown of an active
session reaches 0 (the tick from `timeRemaining = 1`), `prep` is followed
by `hold` in the same round and `hold` by `recovery` in the same round;
`recovery` is followed by `prep` of the next round; the session instead
goes directly to `finished` (deactivating) when the ending phase is `hold`
and the round indexed by the not-yet-advanced next-round index — the
*current* round — has `recovery = 0`, or when the advanced round index
runs off the table.  (The claim as frozen ascribes the `recovery = 0` check
to the *next* round; the code applies it to `tableData[nextRoundIndex]`,
which for an ending `hold` is the current round — see the
counterexample.) -/
theorem threePhase_advance_characterization
    (s : ThreePhase.State) (t : List TrainingRound) (r : TrainingRound)
    (hb : s.tableData = some t) (ha : s.isSessionActive = true)
    (htr : s.timeRemaining = JsNum.num 1)
    (hr : t[s.currentRoundIndex]? = some r) :
    (s.currentPhase = ThreePhase.Phase.prep → 0 < r.hold →
      ThreePhase.tick s
        = { s with currentPhase := ThreePhase.Phase.hold
                   timeRemaining := JsNum.num r.hold
                   trace := s.trace ++ [Cue.phaseEnd, Cue.phaseStart] }) ∧
    (s.currentPhase = ThreePhase.Phase.hold → r.recovery ≠ some 0 →
      ThreePhase.tick s
        = { s with currentPhase := ThreePhase.Phase.recovery
                   timeRemaining := ThreePhase.roundDuration r ThreePhase.Phase.recovery
                   trace := s.trace ++ [Cue.phaseEnd, Cue.phaseStart] }) ∧
    (s.currentPhase = ThreePhase.Phase.hold → r.recovery = some 0 →
      ThreePhase.tick s
        = { s with currentPhase := ThreePhase.Phase.finished
                   isSessionActive := false
                   timeRemaining := JsNum.num 0
                   trace := s.trace ++ [Cue.phaseEnd] }) ∧
    (∀ r' : TrainingRound, s.currentPhase = ThreePhase.Phase.recovery →
      t[s.currentRoundIndex + 1]? = some r' → 0 < r'.prep →
      ThreePhase.tick s
        = { s with currentPhase := ThreePhase.Phase.prep
                   currentRoundIndex := s.currentRoundIndex + 1
                   timeRemaining := JsNum.num r'.prep
                   trace := s.trace ++ [Cue.phaseEnd, Cue.phaseStart] }) ∧
    (s.currentPhase = ThreePhase.Phase.recovery → t[s.currentRoundIndex + 1]? = none →
      ThreePhase.tick s
        = { s with currentPhase := ThreePhase.Phase.finished
                   isSessionActive := false
                   timeRemaining := JsNum.num 0
                   trace := s.trace ++ [Cue.phaseEnd] }) := by
  obtain ⟨tt, td, act, idx, ph, trem, trc⟩ := s
  simp only at hb ha htr hr
  subst hb ha htr
  refine ⟨?_, ?_, ?_, ?_, ?_⟩
  · intro hph hh
    simp only at hph
    subst hph
    unfold ThreePhase.tick
    norm_num [jsLeZero, jsTickWindow, jsSub1]
    rw [ThreePhase.cascade_step ⟨rfl, rfl⟩ (by simp [ThreePhase.fuelOf])]
    have hadv : ThreePhase.advancePhase
        ⟨tt, some t, true, idx, ThreePhase.Phase.prep, JsNum.num 0, trc ++ [Cue.phaseEnd]⟩
        = ⟨tt, some t, true, idx, ThreePhase.Phase.hold, JsNum.num r.hold,
            trc ++ [Cue.phaseEnd] ++ [Cue.phaseStart]⟩ := by
      unfold ThreePhase.advancePhase
      simp only []
      rw [show (if ThreePhase.Phase.prep = ThreePhase.Phase.recovery then idx + 1 else idx) = idx
        from by simp]
      rw [hr]
      simp [ThreePhase.roundDuration]
    rw [hadv]
    rw [ThreePhase.cascade_skip (by simp [ThreePhase.cascadeTrigger]; omega)]
    simp
  · intro hph hrec
    simp only at hph
    subst hph
    unfold ThreePhase.tick
    norm_num [jsLeZero, jsTickWindow, jsSub1]
    rw [ThreePhase.cascade_step ⟨rfl, rfl⟩ (by simp [ThreePhase.fuelOf])]
    have hadv : ThreePhase.advancePhase
        ⟨tt, some t, true, idx, ThreePhase.Phase.hold, JsNum.num 0, trc ++ [Cue.phaseEnd]⟩
        = ⟨tt, some t, true, idx, ThreePhase.Phase.recovery,
            ThreePhase.roundDuration r ThreePhase.Phase.recovery,
            trc ++ [Cue.phaseEnd] ++ [Cue.phaseStart]⟩ := by
      unfold ThreePhase.advancePhase
      simp only []
      rw [show (if ThreePhase.Phase.hold = ThreePhase.Phase.recovery then idx + 1 else idx) = idx
        from by simp]
      rw [hr]
      simp [hrec]
    rw [hadv]
    rw [ThreePhase.cascade_skip ?_]
    · simp
    · simp only [ThreePhase.cascadeTrigger]
      rcases hv : r.recovery with _ | v
      · simp [ThreePhase.roundDuration, hv]
      · have : v ≠ 0 := fun h0 => hrec (by rw [hv, h0])
        simp [ThreePhase.roundDuration, hv]
        omega
  · intro hph hrec0
    simp only at hph
    subst hph
    unfold ThreePhase.tick
    norm_num [jsLeZero, jsTickWindow, jsSub1]
    rw [ThreePhase.cascade_step ⟨rfl, rfl⟩ (by simp [ThreePhase.fuelOf])]
    have hadv : ThreePhase.advancePhase
        ⟨tt, some t, true, idx, ThreePhase.Phase.hold, JsNum.num 0, trc ++ [Cue.phaseEnd]⟩
        = ⟨tt, some t, false, idx, ThreePhase.Phase.finished, JsNum.num 0,
            trc ++ [Cue.phaseEnd]⟩ := by
      unfold ThreePhase.advancePhase
      simp only []
      rw [show (if ThreePhase.Phase.hold = ThreePhase.Phase.recovery then idx + 1 else idx) = idx
        from by simp]
      rw [hr]
      simp [hrec0]
    rw [hadv]
    rw [ThreePhase.cascade_skip (by simp [ThreePhase.cascadeTrigger])]
  · intro r' hph hr' hp'
    simp only at hph hr'
    subst hph
    unfold ThreePhase.tick
    norm_num [jsLeZero, jsTickWindow, jsSub1]
    rw [ThreePhase.cascade_step ⟨rfl, rfl⟩ (by simp [ThreePhase.fuelOf])]
    have hadv : ThreePhase.advancePhase
        ⟨tt, some t, true, idx, ThreePhase.Phase.recovery, JsNum.num 0, trc ++ [Cue.phaseEnd]⟩
        = ⟨tt, some t, true, idx + 1, ThreePhase.Phase.prep, JsNum.num r'.prep,
            trc ++ [Cue.phaseEnd] ++ [Cue.phaseStart]⟩ := by
      unfold ThreePhase.advancePhase
      simp only []
      rw [show (if True then idx + 1 else idx) = idx + 1 from by simp]
      rw [hr']
      simp [ThreePhase.roundDuration]
    rw [hadv]
    rw [ThreePhase.cascade_skip (by simp [ThreePhase.cascadeTrigger]; omega)]
    simp
  · intro hph hend
    simp only at hph hend
    subst hph
    unfold ThreePhase.tick
    norm_num [jsLeZero, jsTickWindow, jsSub1]
    rw [ThreePhase.cascade_step ⟨rfl, rfl⟩ (by simp [ThreePhase.fuelOf])]
    have hadv : ThreePhase.advancePhase
        ⟨tt, some t, true, idx, ThreePhase.Phase.recovery, JsNum.num 0, trc ++ [Cue.phaseEnd]⟩
        = ⟨tt, some t, false, idx, ThreePhase.Phase.finished, JsNum.num 0,
            trc ++ [Cue.phaseEnd]⟩ := by
      unfold ThreePhase.advancePhase
      simp only []
      rw [show (if True then idx + 1 else idx) = idx + 1 from by simp]
      rw [hend]
    rw [hadv]
    rw [ThreePhase.cascade_skip (by simp [ThreePhase.cascadeTrigger])]

/-- Witness for the amended C2: on `shortTable`, the tick ending round 1's
prep (1 s) moves the session to `hold` with 1 s loaded and an end/start cue
pair. -/
theorem threePhase_advance_characterization_witness :
    ThreePhase.tick
      { tableType := TableType.co2, tableData := some shortTable, isSessionActive := true,
        currentRoundIndex := 0, currentPhase := ThreePhase.Phase.prep,
        timeRemaining := JsNum.num 1, trace := [] }
      = { tableType := TableType.co2, tableData := some shortTable, isSessionActive := true,
          currentRoundIndex := 0, currentPhase := ThreePhase.Phase.hold,
          timeRemaining := JsNum.num 1, trace := [Cue.phaseEnd, Cue.phaseStart] } := by
  have h := (threePhase_advance_characterization
    { tableType := TableType.co2, tableData := some shortTable, isSessionActive := true,
      currentRoundIndex := 0, currentPhase := ThreePhase.Phase.prep,
      timeRemaining := JsNum.num 1, trace := [] }
    shortTable ⟨1, 1, 1, none⟩ rfl rfl rfl (by decide)).1 rfl (by decide)
  simpa using h

/-- **C2 counterexample.** The claim as frozen says the hold-ending edge
case consults the *next* round's recovery: here the next round (index 1)
has `recovery = 5 ≠ 0` and the advanced index stays within the table, so
the claim predicts `hold → recovery` in the same round; the code instead
finishes the session because the *current* round's `recovery` is 0. -/
theorem threePhase_hold_end_reads_current_round :
    (ThreePhase.tick
      { tableType := TableType.co2
        tableData := some [⟨1, 3, 3, some 0⟩, ⟨2, 3, 3, some 5⟩]
        isSessionActive := true
        currentRoundIndex := 0
        currentPhase := ThreePhase.Phase.hold
        timeRemaining := JsNum.num 1
        trace := [] }).currentPhase = ThreePhase.Phase.finished ∧
    (ThreePhase.tick
      { tableType := TableType.co2
        tableData := some [⟨1, 3, 3, some 0⟩, ⟨2, 3, 3, some 5⟩]
        isSessionActive := true
        currentRoundIndex := 0
        currentPhase := ThreePhase.Phase.hold
        timeRemaining := JsNum.num 1
        trace := [] }).isSessionActive = false := by
  decide

/-- Witness for C6 on `shortTable` (8 rounds of one-second phases):
16 ticks finish the session. -/
theorem twoPhase_full_run_finishes_witness :
    ((TwoPhase.tick)^[tableTicks shortTable]
      (TwoPhase.startSession
        { TwoPhase.initialState with tableData := some shortTable })).currentPhase
      = TwoPhase.Phase.finished := by
  exact (twoPhase_full_run_finishes shortTable
    { TwoPhase.initialState with tableData := some shortTable }
    (by decide) (by decide) rfl).1

/-- **C3 (failing run).** Three-phase controller on its own generated
table: submit a 30 s CO₂ personal best (round 1: prep 105 s, hold 30 s),
start, and tick 135 times.  The 135th tick ends the first hold; because the
generated round has no `recovery` value, the session enters `recovery`
still active with `timeRemaining = undefined`, and the next tick leaves it
`NaN` — the countdown is no longer a number between 0 and the phase
duration and never reaches 0 again. -/
theorem threePhase_recovery_undefined_run :
    ((ThreePhase.tick)^[135] (ThreePhase.startSession
        (ThreePhase.onSubmit 0 30 ThreePhase.initialState))).isSessionActive = true ∧
    ((ThreePhase.tick)^[135] (ThreePhase.startSession
        (ThreePhase.onSubmit 0 30 ThreePhase.initialState))).currentPhase
      = ThreePhase.Phase.recovery ∧
    ((ThreePhase.tick)^[135] (ThreePhase.startSession
        (ThreePhase.onSubmit 0 30 ThreePhase.initialState))).timeRemaining = JsNum.undefined ∧
    ((ThreePhase.tick)^[136] (ThreePhase.startSession
        (ThreePhase.onSubmit 0 30 ThreePhase.initialState))).timeRemaining = JsNum.nan := by
  decide

/-- **C7 counterexample.** The three-phase controller's submit path applies
no variant thresholds: submitting a 10 s personal best on the CO₂ tab (well
below the claimed 30 s floor) generates and binds a table instead of
rejecting the input, mutating the table state. -/
theorem threePhase_submit_no_threshold :
    (10 : Nat) < 30 ∧
    ThreePhase.initialState.tableType = TableType.co2 ∧
    (ThreePhase.onSubmit 0 10 ThreePhase.initialState).tableData
      = some (generateCo2Table 10) := by
  decide

/-- **C7 (amended).** In the two-phase controller, submitting a personal
best below 30 s on the CO₂ tab or below 60 s on the O₂ tab only raises the
user-facing alert, leaving the table and all session state untouched (no
silent clamping); a personal best at or above the threshold binds the
freshly generated table of the submitted value and resets the session.
The three-phase controller's submit applies no variant thresholds and binds
a generated table for every submitted value. -/
theorem submitPersonalBest_validation :
    (∀ (s : TwoPhase.State) (pb : Nat), s.tableType = TableType.co2 → pb < 30 →
      TwoPhase.onSubmit pb s
        = { s with alertMessage := TwoPhase.co2AlertMessage, showAlert := true }) ∧
    (∀ (s : TwoPhase.State) (pb : Nat), s.tableType = TableType.o2 → pb < 60 →
      TwoPhase.onSubmit pb s
        = { s with alertMessage := TwoPhase.o2AlertMessage, showAlert := true }) ∧
    (∀ (s : TwoPhase.State) (pb : Nat), s.tableType = TableType.co2 → 30 ≤ pb →
      TwoPhase.onSubmit pb s
        = { s with tableData := some (generateCo2Table pb)
                   isSessionActive := false
                   currentRoundIndex := 0
                   currentPhase := TwoPhase.Phase.ready
                   timeRemaining := 0 }) ∧
    (∀ (s : TwoPhase.State) (pb : Nat), s.tableType = TableType.o2 → 60 ≤ pb →
      TwoPhase.onSubmit pb s
        = { s with tableData := some (generateO2Table pb)
                   isSessionActive := false
                   currentRoundIndex := 0
                   currentPhase := TwoPhase.Phase.ready
                   timeRemaining := 0 }) ∧
    (∀ (s : ThreePhase.State) (minutes seconds : Nat),
      (ThreePhase.onSubmit minutes seconds s).tableData
        = some (generateTable s.tableType (minutes * 60 + seconds))) := by
  refine ⟨?_, ?_, ?_, ?_, ?_⟩
  · intro s pb htt hpb
    simp [TwoPhase.onSubmit, htt, hpb]
  · intro s pb htt hpb
    simp [TwoPhase.onSubmit, htt, hpb]
  · intro s pb htt hpb
    have h30 : ¬ pb < 30 := by omega
    obtain ⟨tt, td, act, idx, ph, trem, sa, am, trc⟩ := s
    simp only at htt
    subst htt
    simp [TwoPhase.onSubmit, h30, TwoPhase.resetSessionState, generateTable]
  · intro s pb htt hpb
    have h60 : ¬ pb < 60 := by omega
    obtain ⟨tt, td, act, idx, ph, trem, sa, am, trc⟩ := s
    simp only at htt
    subst htt
    simp [TwoPhase.onSubmit, h60, TwoPhase.resetSessionState, generateTable]
  · intro s minutes seconds
    simp [ThreePhase.onSubmit]

/-- Witness for the amended C7: a 20 s CO₂ submission from the initial
state only raises the alert. -/
theorem submitPersonalBest_validation_witness :
    TwoPhase.onSubmit 20 TwoPhase.initialState
      = { TwoPhase.initialState with
          alertMessage := TwoPhase.co2AlertMessage
          showAlert := true } := by
  exact submitPersonalBest_validation.1 TwoPhase.initialState 20 rfl (by decide)

/-- **C8.** In both controllers, `startSession` on a bound non-empty table
(whose first prep is positive — true of every generator table) activates
the session at round 0 in `prep` with `timeRemaining = table[0].prep` and
one phase-start cue; with no table bound it is a silent no-op. -/
theorem startSession_spec :
    (∀ (s : TwoPhase.State) (r : TrainingRound) (rest : List TrainingRound),
      s.tableData = some (r :: rest) → 0 < r.prep →
      TwoPhase.startSession s
        = { s with isSessionActive := true
                   currentRoundIndex := 0
                   currentPhase := TwoPhase.Phase.prep
                   timeRemaining := (r.prep : Int)
                   trace := s.trace ++ [Cue.phaseStart] }) ∧
    (∀ s : TwoPhase.State, s.tableData = none → TwoPhase.startSession s = s) ∧
    (∀ (s : ThreePhase.State) (r : TrainingRound) (rest : List TrainingRound),
      s.tableData = some (r :: rest) → 0 < r.prep →
      ThreePhase.startSession s
        = { s with isSessionActive := true
                   currentRoundIndex := 0
                   currentPhase := ThreePhase.Phase.prep
                   timeRemaining := JsNum.num r.prep
                   trace := s.trace ++ [Cue.phaseStart] }) ∧
    (∀ s : ThreePhase.State, s.tableData = none → ThreePhase.startSession s = s) := by
  refine ⟨?_, ?_, ?_, ?_⟩
  · intro s r rest hb hp
    exact TwoPhase.startSession_eq hb hp
  · intro s hb
    unfold TwoPhase.startSession
    rw [hb]
  · intro s r rest hb hp
    obtain ⟨tt, td, act, idx, ph, trem, trc⟩ := s
    simp only at hb
    subst hb
    unfold ThreePhase.startSession
    simp only [List.head?]
    rw [ThreePhase.cascade_skip ?_]
    · simp only [ThreePhase.cascadeTrigger]
      intro h
      have := h.2
      simp at this
      omega
  · intro s hb
    unfold ThreePhase.startSession
    rw [hb]

/-- Witness for C8: starting on `shortTable` from the initial state loads
round 1's one-second prep. -/
theorem startSession_spec_witness :
    TwoPhase.startSession { TwoPhase.initialState with tableData := some shortTable }
      = { TwoPhase.initialState with
          tableData := some shortTable
          isSessionActive := true
          currentRoundIndex := 0
          currentPhase := TwoPhase.Phase.prep
          timeRemaining := (1 : Int)
          trace := [Cue.phaseStart] } := by
  have h := startSession_spec.1 { TwoPhase.initialState with tableData := some shortTable }
    ⟨1, 1, 1, none⟩ shortTable.tail (by decide) (by decide)
  simpa using h

/-- **C9.** In both controllers, `stopSession` — callable at any point, a
total function that raises no error — deactivates the session and resets
the round index to 0, the phase to the controller's initial phase
(`'ready'` in the two-phase controller, `'prep'` in the three-phase one)
and `timeRemaining` to 0, whatever round, phase and countdown the session
was in. -/
theorem stopSession_resets (s2 : TwoPhase.State) (s3 : ThreePhase.State) :
    (TwoPhase.stopSession s2).isSessionActive = false ∧
    (TwoPhase.stopSession s2).currentRoundIndex = 0 ∧
    (TwoPhase.stopSession s2).currentPhase = TwoPhase.initialState.currentPhase ∧
    (TwoPhase.stopSession s2).timeRemaining = 0 ∧
    (ThreePhase.stopSession s3).isSessionActive = false ∧
    (ThreePhase.stopSession s3).currentRoundIndex = 0 ∧
    (ThreePhase.stopSession s3).currentPhase = ThreePhase.initialState.currentPhase ∧
    (ThreePhase.stopSession s3).timeRemaining = JsNum.num 0 := by
  simp [TwoPhase.stopSession, TwoPhase.resetSessionState, ThreePhase.stopSession,
    TwoPhase.initialState, ThreePhase.initialState]

/-- **C10.** The generators assign only `round`, `prep` and `hold`: every
generated round's `recovery` is absent (`undefined`, modelled `none`).
Consequently, in the three-phase engine the hold-end check
`recovery === 0` is never satisfied on a generator table — the session does
not finish there but proceeds into `recovery` — and the duration it loads
for the `recovery` phase is `undefined`, not a number. -/
theorem generator_tables_lack_recovery :
    (∀ pb : Nat, ∀ r ∈ generateCo2Table pb, r.recovery = none) ∧
    (∀ pb : Nat, ∀ r ∈ generateO2Table pb, r.recovery = none) ∧
    (∀ (s : ThreePhase.State) (t : List TrainingRound) (r : TrainingRound),
      s.tableData = some t → (∀ rr ∈ t, rr.recovery = none) →
      s.isSessionActive = true → s.currentPhase = ThreePhase.Phase.hold →
      t[s.currentRoundIndex]? = some r →
      (ThreePhase.advancePhase s).currentPhase = ThreePhase.Phase.recovery ∧
      (ThreePhase.advancePhase s).isSessionActive = true ∧
      (ThreePhase.advancePhase s).currentRoundIndex = s.currentRoundIndex ∧
      (ThreePhase.advancePhase s).timeRemaining = JsNum.undefined) := by
  refine ⟨?_, ?_, ?_⟩
  · intro pb r hrm
    simp only [generateCo2Table, List.mem_map] at hrm
    obtain ⟨k, -, rfl⟩ := hrm
    rfl
  · intro pb r hrm
    simp only [generateO2Table, List.mem_map] at hrm
    obtain ⟨k, -, rfl⟩ := hrm
    rfl
  · intro s t r hb hnone ha hph hr
    have hrn : r.recovery = none := hnone r (List.getElem?_mem hr)
    obtain ⟨tt, td, act, idx, ph, trem, trc⟩ := s
    simp only at hb ha hph hr
    subst hb ha hph
    have hadv : ThreePhase.advancePhase
        ⟨tt, some t, true, idx, ThreePhase.Phase.hold, trem, trc⟩
        = ⟨tt, some t, true, idx, ThreePhase.Phase.recovery, JsNum.undefined,
            trc ++ [Cue.phaseStart]⟩ := by
      unfold ThreePhase.advancePhase
      simp only []
      rw [show (if ThreePhase.Phase.hold = ThreePhase.Phase.recovery then idx + 1 else idx)
          = idx from by simp]
      rw [hr]
      simp [hrn, ThreePhase.roundDuration]
    rw [hadv]
    simp

/-- Witness for C10 at the CO₂-90 table: ending the first hold loads an
`undefined` recovery duration. -/
theorem generator_tables_lack_recovery_witness :
    (ThreePhase.advancePhase
      { tableType := TableType.co2, tableData := some (generateCo2Table 90),
        isSessionActive := true, currentRoundIndex := 0,
        currentPhase := ThreePhase.Phase.hold, timeRemaining := JsNum.num 0,
        trace := [] }).timeRemaining = JsNum.undefined := by
  exact (generator_tables_lack_recovery.2.2
    { tableType := TableType.co2, tableData := some (generateCo2Table 90),
      isSessionActive := true, currentRoundIndex := 0,
      currentPhase := ThreePhase.Phase.hold, timeRemaining := JsNum.num 0,
      trace := [] }
    (generateCo2Table 90) ⟨1, 129, 54, none⟩ rfl (by decide) rfl rfl (by decide)).2.2.2
